import Mathlib

/-!
Shallow embedding of the `lalib` library (webartifex/lalib) for checking its
natural-language specification. Python floating-point numbers are modelled as
exact rational numbers extended with the special values `inf`, `-inf`, `nan`;
Python exceptions are modelled with an explicit error type and `Except`.
The definitions follow the source files `src/lalib/elements/gf2.py`,
`src/lalib/fields/{base,rational,real,complex_,galois}.py`,
`src/lalib/domains.py` and `src/lalib/config.py`.
-/

attribute [local semireducible] Rat.add Rat.mul Rat.inv Rat.sub Rat.ofScientific

namespace Lalib

/-- Model of the Python exception kinds raised by the library, with their
messages.  `overflowError` and `zeroDivisionError` are subclasses of Python's
`ArithmeticError`, which matters for the `except` clause in `Field.cast`. -/
inductive PyErr where
  | typeError (msg : String)
  | valueError (msg : String)
  | overflowError (msg : String)
  | zeroDivisionError (msg : String)
  | attributeError (msg : String)
  | runtimeError (msg : String)
deriving DecidableEq, Repr

/-- Model of a Python `float`: an exact rational, or one of the special
IEEE values.  Finite floats are represented by their exact rational value. -/
inductive PyFloat where
  | finite (q : ℚ)
  | pinf
  | ninf
  | nan
deriving DecidableEq, Repr

namespace PyFloat

/-- Model of `math.isnan`. -/
def isNaN : PyFloat → Bool
  | .nan => true
  | _ => false

/-- Model of `math.isfinite`. -/
def isFinite : PyFloat → Bool
  | .finite _ => true
  | _ => false

/-- Model of `abs` on floats. -/
def abs : PyFloat → PyFloat
  | .finite q => .finite |q|
  | .pinf => .pinf
  | .ninf => .pinf
  | .nan => .nan

/-- Model of float subtraction (NaN propagates; `inf - inf` is NaN). -/
def sub : PyFloat → PyFloat → PyFloat
  | .finite a, .finite b => .finite (a - b)
  | .nan, _ => .nan
  | _, .nan => .nan
  | .pinf, .pinf => .nan
  | .pinf, _ => .pinf
  | .ninf, .ninf => .nan
  | .ninf, _ => .ninf
  | .finite _, .pinf => .ninf
  | .finite _, .ninf => .pinf

/-- Model of the float comparison `x < y`; any comparison with NaN is false. -/
def lt : PyFloat → PyFloat → Bool
  | .nan, _ => false
  | _, .nan => false
  | .ninf, .ninf => false
  | .ninf, _ => true
  | .finite a, .finite b => a < b
  | .finite _, .pinf => true
  | .finite _, .ninf => false
  | .pinf, _ => false

end PyFloat

/-- An interned `GF2` element object: its Python object identity `id` and its
internal payload `_value` (here `val`). -/
structure GF2Obj where
  id : ℕ
  val : ℕ
deriving DecidableEq, Repr

/-- The universe of inputs the library's casting functions are exercised with:
Python ints, floats, complex numbers, existing `GF2` element objects (which
are `numbers.Rational` instances), and a stand-in for any object that is not
convertible to a number at all. -/
inductive PyValue where
  | int (n : ℤ)
  | float (x : PyFloat)
  | cplx (re im : PyFloat)
  | gf2Val (o : GF2Obj)
  | nonNumber
deriving DecidableEq, Repr

/-- Model of `complex(value)`: the real and imaginary parts, or `none` when the
conversion raises (a `TypeError`/`ValueError` for non-numbers).  A `GF2`
element converts via its `__complex__`, i.e. `complex(self._value, 0)`. -/
def toComplexParts : PyValue → Option (PyFloat × PyFloat)
  | .int n => some (.finite n, .finite 0)
  | .float x => some (x, .finite 0)
  | .cplx re im => some (re, im)
  | .gf2Val o => some (.finite o.val, .finite 0)
  | .nonNumber => none

/-- Library-wide default `NDIGITS` from `config.py`. -/
def NDIGITS : ℕ := 12

/-- Library-wide default `THRESHOLD = 1 / (10 ** NDIGITS)` from `config.py`
(`gf2.py` spells the same constant `1e-12`). -/
def THRESHOLD : PyFloat := .finite (1 / 10 ^ 12)

/-- Library-wide default `MAX_DENOMINATOR = math.trunc(1 / THRESHOLD)` from
`config.py`. -/
def MAX_DENOMINATOR : ℕ := 10 ^ 12

/-- The recurring message of `to_gf2` (and `GF2.__new__`) from `gf2.py`. -/
def gf2likeMsg : String := "`value` must be either `1`-like or `0`-like"

/-- Model of `to_gf2(value, *, strict, threshold)` from `gf2.py`:
cast a number as a possible Galois field value, `1` or `0`. -/
def to_gf2 (value : PyValue) (strict : Bool) (threshold : PyFloat) :
    Except PyErr ℕ :=
  match toComplexParts value with
  | none => .error (.typeError "`value` must be a number")
  | some (re, im) =>
    if !(PyFloat.lt im.abs threshold) then .error (.valueError gf2likeMsg)
    else if re.isNaN then .error (.valueError gf2likeMsg)
    else if strict then
      if PyFloat.lt (PyFloat.abs (re.sub (.finite 1))) threshold then .ok 1
      else if PyFloat.lt re.abs threshold then .ok 0
      else .error (.valueError gf2likeMsg)
    else if PyFloat.lt re.abs threshold then .ok 0
    else .ok 1

deriving instance DecidableEq for Except

/-- The registry `GF2._instances` (a `ClassVar` dict from `int` payloads to the
interned objects) together with a counter producing fresh object identities. -/
structure GF2State where
  instances : List (ℕ × GF2Obj)
  nextId : ℕ
deriving DecidableEq, Repr

/-- Model of the dict lookup `cls._instances[value]`; entries added later are
consed in front, matching dict-overwrite semantics. -/
def GF2State.lookup (st : GF2State) (k : ℕ) : Option GF2Obj :=
  (st.instances.find? (fun p => p.1 == k)).map (·.2)

/-- The class the constructor is invoked on: `GF2` itself or one of its two
concrete subclasses `GF2One` / `GF2Zero` from `gf2.py`. -/
inductive GF2Cls where
  | base
  | oneCls
  | zeroCls
deriving DecidableEq, Repr

/-- The class attribute `cls._value`: defined on the two subclasses only;
accessing it on `GF2` itself raises `AttributeError`. -/
def GF2Cls.clsValue : GF2Cls → Option ℕ
  | .base => none
  | .oneCls => some 1
  | .zeroCls => some 0

/-- Model of `isinstance(obj, cls)` for the three classes; in any reachable
state the object with payload 1 is the `GF2One` instance and the object with
payload 0 the `GF2Zero` instance. -/
def GF2Obj.isInstanceOf (o : GF2Obj) : GF2Cls → Bool
  | .base => true
  | .oneCls => o.val == 1
  | .zeroCls => o.val == 0

/-- Model of the second half of `GF2.__new__`: given the resolved integer key
(or an exception from resolving it), return the interned instance, creating
and registering it on a registry miss.  On a miss the fresh object is stored
under `int(obj)`, which reads the class attribute `_value` (an
`AttributeError` on the base class). -/
def GF2newKeyed (st : GF2State) (cls : GF2Cls) (key : Except PyErr ℕ) :
    Except PyErr (GF2Obj × GF2State) := do
  let k ← key
  match st.lookup k with
  | some o => pure (o, st)
  | none =>
    match cls.clsValue with
    | some v =>
      let o : GF2Obj := ⟨st.nextId, v⟩
      pure (o, ⟨(v, o) :: st.instances, st.nextId + 1⟩)
    | none => .error (.attributeError "type object GF2 has no attribute _value")

/-- Model of `GF2.__new__(cls, value=None, *, strict=True, threshold=THRESHOLD)`
from `gf2.py`: instances pass through unchanged, `None` resolves to the class
default (`cls._value`, falling back to `cls._instances[0]`), anything else is
resolved through `to_gf2`. -/
def GF2new (st : GF2State) (cls : GF2Cls) (value : Option PyValue)
    (strict : Bool) (threshold : PyFloat) : Except PyErr (GF2Obj × GF2State) :=
  match value with
  | some (.gf2Val o) =>
    if o.isInstanceOf cls then .ok (o, st)
    else GF2newKeyed st cls (to_gf2 (.gf2Val o) strict threshold)
  | none =>
    match cls.clsValue with
    | some v => GF2newKeyed st cls (.ok v)
    | none =>
      match st.lookup 0 with
      | some o => .ok (o, st)
      | none =>
        .error (.runtimeError "Must create `one` and `zero` first (internal error)")
  | some v => GF2newKeyed st cls (to_gf2 v strict threshold)

/-- Registry state before module initialization. -/
def emptyGF2State : GF2State := ⟨[], 0⟩

/-- The interned object bound to `one` in `gf2.py` (allocated first). -/
def oneObj : GF2Obj := ⟨0, 1⟩

/-- The interned object bound to `zero` in `gf2.py` (allocated second). -/
def zeroObj : GF2Obj := ⟨1, 0⟩

/-- The registry after the module-level initialization `one = GF2One()` then
`zero = GF2Zero()` at the bottom of `gf2.py`. -/
def initState : GF2State := ⟨[(0, zeroObj), (1, oneObj)], 2⟩

/-- Model of `GF2.__eq__`: coerce the other operand with the constructor
defaults and test object identity (`self is other`); a `TypeError` or
`ValueError` during the coercion yields `False`. -/
def GF2eq (st : GF2State) (self : GF2Obj) (other : PyValue) : Except PyErr Bool :=
  match GF2new st .base (some other) true THRESHOLD with
  | .ok (o, _) => .ok (self.id == o.id)
  | .error (.typeError _) => .ok false
  | .error (.valueError _) => .ok false
  | .error e => .error e

/-- Outcome of a Python binary-operator special method: a value, the
`NotImplemented` sentinel, or a raised exception. -/
inductive OpResult where
  | val (o : GF2Obj) (st : GF2State)
  | notImpl
  | err (e : PyErr)
deriving DecidableEq, Repr

/-- Model of `self.__class__` for the two interned values. -/
def selfCls (self : GF2Obj) : GF2Cls := if self.val == 1 then .oneCls else .zeroCls

/-- Model of `GF2._compute(self, other, func)` from `gf2.py`: coerce `other`
(`TypeError` becomes `NotImplemented`, `ValueError` is re-raised with the
operand message), run `func` over the `int` payloads, re-wrap the result
through `self.__class__(...)`, and re-raise any `ZeroDivisionError` with the
distinguished message. -/
def GF2compute (st : GF2State) (self : GF2Obj) (other : PyValue)
    (func : ℤ → ℤ → Except PyErr PyValue) : OpResult :=
  match GF2new st .base (some other) true THRESHOLD with
  | .error (.typeError _) => .notImpl
  | .error (.valueError _) =>
    .err (.valueError "`other` must be a `1`-like or `0`-like value")
  | .error e => .err e
  | .ok (o, st1) =>
    match func (self.val : ℤ) (o.val : ℤ) with
    | .error (.zeroDivisionError _) =>
      .err (.zeroDivisionError "division by `0`-like value")
    | .error e => .err e
    | .ok res =>
      match GF2new st1 (selfCls self) (some res) true THRESHOLD with
      | .error (.zeroDivisionError _) =>
        .err (.zeroDivisionError "division by `0`-like value")
      | .error e => .err e
      | .ok (r, st2) => .val r st2

/-- The lambda of `GF2.__add__` (also `__radd__`, `__sub__`, `__rsub__`):
`(s + o) % 2` on Python ints. -/
def pyAddMod2 (s o : ℤ) : Except PyErr PyValue := .ok (.int ((s + o) % 2))

/-- The lambda of `GF2.__mul__` / `__rmul__`: `s * o` on Python ints. -/
def pyMulInt (s o : ℤ) : Except PyErr PyValue := .ok (.int (s * o))

/-- Python `s / o` on ints: a `float` result, or `ZeroDivisionError`. -/
def pyTrueDivInt (s o : ℤ) : Except PyErr PyValue :=
  if o = 0 then .error (.zeroDivisionError "division by zero")
  else .ok (.float (.finite ((s : ℚ) / (o : ℚ))))

/-- Python `s % o` on ints (both operands are 0 or 1 at every call site). -/
def pyModInt (s o : ℤ) : Except PyErr PyValue :=
  if o = 0 then .error (.zeroDivisionError "integer modulo by zero")
  else .ok (.int (s % o))

/-- Python `s ** o` on ints (both operands are 0 or 1 at every call site,
so the exponent is never negative). -/
def pyPowInt (s o : ℤ) : Except PyErr PyValue := .ok (.int (s ^ o.toNat))

/-- The binary arithmetic operators of `GF2`, reflected forms included. -/
inductive GF2Op where
  | add | radd | sub | rsub
  | mul | rmul
  | truediv | rtruediv | floordiv | rfloordiv
  | mod | rmod
  | pow | rpow
deriving DecidableEq, Repr

/-- Dispatch of the `GF2` binary operators to `_compute` with the lambda each
operator passes in `gf2.py` (`__radd__ = __add__ = __sub__ = __rsub__`,
`__floordiv__ = __truediv__`, and the reflected division/modulo/power lambdas
swap the operands). -/
def GF2binop (st : GF2State) (op : GF2Op) (self : GF2Obj) (other : PyValue) :
    OpResult :=
  match op with
  | .add | .radd | .sub | .rsub => GF2compute st self other pyAddMod2
  | .mul | .rmul => GF2compute st self other pyMulInt
  | .truediv | .floordiv => GF2compute st self other pyTrueDivInt
  | .rtruediv | .rfloordiv => GF2compute st self other (fun s o => pyTrueDivInt o s)
  | .mod => GF2compute st self other pyModInt
  | .rmod => GF2compute st self other (fun s o => pyModInt o s)
  | .pow => GF2compute st self other pyPowInt
  | .rpow => GF2compute st self other (fun s o => pyPowInt o s)

/-- Model of `GF2.__pos__`: returns `self`. -/
def GF2pos (self : GF2Obj) : GF2Obj := self

/-- Model of `GF2.__neg__`: returns `self`. -/
def GF2neg (self : GF2Obj) : GF2Obj := self

/-- Model of `GF2.__abs__`: returns `self`. -/
def GF2absOp (self : GF2Obj) : GF2Obj := self

/-- Whether `Field.cast` catches this exception: its `except` clause lists
`ArithmeticError` (which covers `OverflowError` and `ZeroDivisionError`),
`TypeError`, and `ValueError`. -/
def PyErr.isCastCatchable : PyErr → Bool
  | .typeError _ => true
  | .valueError _ => true
  | .overflowError _ => true
  | .zeroDivisionError _ => true
  | .attributeError _ => false
  | .runtimeError _ => false

/-- The uniform message of `Field.cast` from `base.py`. -/
def castErrMsg : String := "`value` is not an element of the field"

/-- Model of `Field.cast` from `base.py`: run the field-specific
`_cast_func`, re-raise caught errors as a uniform `ValueError`, and apply the
`_post_cast_filter`. -/
def wrapCast {α : Type} (castFunc : Except PyErr α) (postFilter : α → Bool) :
    Except PyErr α :=
  match castFunc with
  | .error e =>
    if e.isCastCatchable then .error (.valueError castErrMsg) else .error e
  | .ok x => if postFilter x then .ok x else .error (.valueError castErrMsg)

/-- Model of `Field.validate` from `base.py`: wrap `cast`, suppress its
`ValueError` when `silent` is set, and report membership. -/
def validateWrap {α : Type} (cast : Except PyErr α) (silent : Bool) :
    Except PyErr Bool :=
  match cast with
  | .ok _ => .ok true
  | .error (.valueError m) => if silent then .ok false else .error (.valueError m)
  | .error e => .error e

/-- Model of `fractions.Fraction(value)`: exact for ints, finite floats and
`numbers.Rational` instances (`GF2` elements registered as such); raises
`ValueError` for NaN, `OverflowError` for infinities, and `TypeError` for
complex numbers and non-numbers. -/
def pyFraction : PyValue → Except PyErr ℚ
  | .int n => .ok (n : ℚ)
  | .float (.finite q) => .ok q
  | .float .nan => .error (.valueError "cannot convert NaN to integer ratio")
  | .float .pinf => .error (.overflowError "cannot convert Infinity to integer ratio")
  | .float .ninf => .error (.overflowError "cannot convert Infinity to integer ratio")
  | .cplx _ _ => .error (.typeError "argument should be a string or a Rational instance")
  | .gf2Val o => .ok (o.val : ℚ)
  | .nonNumber => .error (.typeError "argument should be a string or a Rational instance")

/-- The continued-fraction loop of CPython `Fraction.limit_denominator`: the
state is the remaining fraction `n/d` and the convergent data
`(p0, q0, p1, q1)`; the loop stops when the next convergent denominator would
exceed `maxDen`.  The `fuel` drives the structural recursion; the Euclidean
remainder `d` strictly decreases, and the loop in fact stops after at most
about `1.45 * log2 d` steps, so any fuel beyond that bound yields the exact
CPython behaviour. -/
def limitDenomLoop (maxDen : ℤ) :
    ℕ → ℤ → ℤ → ℤ × ℤ × ℤ × ℤ → (ℤ × ℤ) × (ℤ × ℤ × ℤ × ℤ)
  | 0, n, d, s => ((n, d), s)
  | fuel + 1, n, d, (p0, q0, p1, q1) =>
    if d = 0 then ((n, d), (p0, q0, p1, q1))
    else
      let a := Int.fdiv n d
      let q2 := q0 + a * q1
      if maxDen < q2 then ((n, d), (p0, q0, p1, q1))
      else limitDenomLoop maxDen fuel d (n - a * d) (p1, q1, p0 + a * p1, q2)

/-- Model of CPython `Fraction.limit_denominator(maxDen)`: the closest
fraction with denominator at most `maxDen`, by the convergent/semiconvergent
comparison of the CPython source.  The fuel `400` covers every denominator
below `2 ^ 270` (the loop needs at most ~`1.45 * log2 den` iterations). -/
def limitDenominator (q : ℚ) (maxDen : ℕ) : ℚ :=
  if q.den ≤ maxDen then q
  else
    let r := limitDenomLoop (maxDen : ℤ) 400 q.num (q.den : ℤ) (0, 1, 1, 0)
    let d := r.1.2
    let p0 := r.2.1
    let q0 := r.2.2.1
    let p1 := r.2.2.2.1
    let q1 := r.2.2.2.2
    let k := Int.fdiv ((maxDen : ℤ) - q0) q1
    if 2 * d * (q0 + k * q1) ≤ (q.den : ℤ) then (p1 : ℚ) / (q1 : ℚ)
    else ((p0 + k * p1 : ℤ) : ℚ) / ((q0 + k * q1 : ℤ) : ℚ)

/-- Model of `RationalField._cast_func` from `rational.py`:
`Fraction(value).limit_denominator(max_denominator)`. -/
def Q_castFunc (v : PyValue) (maxDenominator : ℕ) : Except PyErr ℚ :=
  (pyFraction v).map (fun f => limitDenominator f maxDenominator)

/-- Model of `Q.cast` (with the default `max_denominator`). -/
def Qcast (v : PyValue) : Except PyErr ℚ :=
  wrapCast (Q_castFunc v MAX_DENOMINATOR) (fun _ => true)

/-- Model of `Q.validate`. -/
def Qvalidate (v : PyValue) (silent : Bool) : Except PyErr Bool :=
  validateWrap (Qcast v) silent

/-- Model of `float(value)`: exact in this model (ints and rationals keep
their exact value); raises `TypeError` for complex numbers and non-numbers.
GF2 elements convert through `__float__`, i.e. `float(self._value)`. -/
def pyFloatFn : PyValue → Except PyErr PyFloat
  | .int n => .ok (.finite n)
  | .float x => .ok x
  | .cplx _ _ => .error (.typeError "cannot convert complex to float")
  | .gf2Val o => .ok (.finite o.val)
  | .nonNumber => .error (.typeError "must be a real number")

/-- Model of `R.cast` from `real.py`: `_dtype = float`,
`_post_cast_filter = math.isfinite`. -/
def Rcast (v : PyValue) : Except PyErr PyFloat :=
  wrapCast (pyFloatFn v) PyFloat.isFinite

/-- Model of `R.validate`. -/
def Rvalidate (v : PyValue) (silent : Bool) : Except PyErr Bool :=
  validateWrap (Rcast v) silent

/-- Model of `complex(value)` as a casting function. -/
def pyComplexFn (v : PyValue) : Except PyErr (PyFloat × PyFloat) :=
  match toComplexParts v with
  | some p => .ok p
  | none => .error (.typeError "complex() argument must be a number")

/-- Model of `C.cast` from `complex_.py`: `_dtype = complex`,
`_post_cast_filter = cmath.isfinite` (both parts finite). -/
def Ccast (v : PyValue) : Except PyErr (PyFloat × PyFloat) :=
  wrapCast (pyComplexFn v) (fun p => p.1.isFinite && p.2.isFinite)

/-- Model of `C.validate`. -/
def Cvalidate (v : PyValue) (silent : Bool) : Except PyErr Bool :=
  validateWrap (Ccast v) silent

/-- Modelled from the spec: `GaloisField2._cast_func` in `fields/galois.py`
calls `gf2(value, strict=strict, threshold=threshold)` from
`lalib.elements.galois`, a module not among the sources; per the spec (the
`gf2` type is the `GF2Element` constructor with the construction contract of
§4.1) it has the contract of `GF2.__new__` from `gf2.py`, used here. -/
def GF2_castFunc (st : GF2State) (v : PyValue) (strict : Bool)
    (threshold : PyFloat) : Except PyErr GF2Obj :=
  (GF2new st .base (some v) strict threshold).map (·.1)

/-- Model of `GF2.cast` (the field) with explicit cast kwargs. -/
def GF2castWith (st : GF2State) (v : PyValue) (strict : Bool)
    (threshold : PyFloat) : Except PyErr GF2Obj :=
  wrapCast (GF2_castFunc st v strict threshold) (fun _ => true)

/-- Model of `GF2.cast` (the field) with the default kwargs. -/
def GF2cast (st : GF2State) (v : PyValue) : Except PyErr GF2Obj :=
  GF2castWith st v true THRESHOLD

/-- Model of `GF2.validate` (the field). -/
def GF2validate (st : GF2State) (v : PyValue) (silent : Bool) :
    Except PyErr Bool :=
  validateWrap (GF2cast st v) silent

/-- Round-half-to-even on an exact rational (the tie-breaking of Python
`round`). -/
def roundHalfEven (x : ℚ) : ℤ :=
  if x - ⌊x⌋ < 1 / 2 then ⌊x⌋
  else if 1 / 2 < x - ⌊x⌋ then ⌊x⌋ + 1
  else if ⌊x⌋ % 2 = 0 then ⌊x⌋ else ⌊x⌋ + 1

/-- Model of Python `round(x, ndigits)` on a float, computed exactly:
round-half-even at the `ndigits`-th decimal place. -/
def roundTo (x : ℚ) (ndigits : ℤ) : ℚ :=
  (roundHalfEven (x * 10 ^ ndigits) : ℚ) / 10 ^ ndigits

/-- Model of `random.uniform(a, b)`: `a + (b - a) * u` for an oracle draw
`u` of `random.random()` (which lies in `[0, 1)`); tolerates `b < a`. -/
def uniform (a b u : ℚ) : ℚ := a + (b - a) * u

/-- Model of `RealField.random` from `real.py` with explicit bounds and an
explicit `random.random()` oracle `u`: cast both bounds (in the given order),
draw uniformly, and round to `ndigits`. -/
def Rrandom (lower upper : PyValue) (ndigits : ℤ) (u : ℚ) :
    Except PyErr PyFloat := do
  let lo ← Rcast lower
  let up ← Rcast upper
  match lo, up with
  | .finite a, .finite b => pure (.finite (roundTo (uniform a b u) ndigits))
  | _, _ => .error (.runtimeError "unreachable: the post-cast filter is isfinite")

/-- Model of `RationalField.random` from `rational.py`: cast both bounds with
the default `max_denominator`, draw uniformly (the `float` conversions of the
bounds are exact in this model), cast the draw through `_cast_func` and limit
its denominator once more with the `max_denominator` argument. -/
def Qrandom (lower upper : PyValue) (maxDenominator : ℕ) (u : ℚ) :
    Except PyErr ℚ := do
  let lo ← Qcast lower
  let up ← Qcast upper
  let randomValue := uniform lo up u
  pure (limitDenominator (limitDenominator randomValue MAX_DENOMINATOR)
    maxDenominator)

/-- Model of `ComplexField.random` from `complex_.py`: the real and imaginary
parts are drawn independently (oracles `u1`, `u2`) within the rectangle
spanned by the cast bounds, each part rounded to `ndigits`. -/
def Crandom (lower upper : PyValue) (ndigits : ℤ) (u1 u2 : ℚ) :
    Except PyErr (ℚ × ℚ) := do
  let lo ← Ccast lower
  let up ← Ccast upper
  match lo, up with
  | (.finite lre, .finite lim), (.finite ure, .finite uim) =>
    pure (roundTo (uniform lre ure u1) ndigits, roundTo (uniform lim uim u2) ndigits)
  | _, _ => .error (.runtimeError "unreachable: the post-cast filter is isfinite")

/-- Model of `GaloisField2.random` from `fields/galois.py`: cast both bounds
(passing the cast kwargs through) and return `random.choice((lower, upper))`,
decided by the oracle `choice`. -/
def GF2random (st : GF2State) (lower upper : PyValue) (strict : Bool)
    (threshold : PyFloat) (choice : Bool) : Except PyErr GF2Obj := do
  let lo ← GF2castWith st lower strict threshold
  let up ← GF2castWith st upper strict threshold
  pure (if choice then lo else up)

/-- The exact complex value of an input, when it has one (no NaN or infinite
component).  Python cross-type numeric equality (`Fraction.__eq__`,
`float.__eq__`, `complex.__eq__`) compares these exact values. -/
def PyValue.exactVal : PyValue → Option (ℚ × ℚ)
  | .int n => some ((n : ℚ), 0)
  | .float (.finite q) => some (q, 0)
  | .float _ => none
  | .cplx (.finite a) (.finite b) => some (a, b)
  | .cplx _ _ => none
  | .gf2Val o => some ((o.val : ℚ), 0)
  | .nonNumber => none

/-- Python `x == v` for a real number `x` (a `Fraction` or `float`) against
an arbitrary operand `v`: exact value comparison. -/
def numEqPy (x : ℚ) (v : PyValue) : Bool := v.exactVal == some (x, 0)

/-- Python `z == v` for a `complex` `z` against an arbitrary operand `v`. -/
def complexEqPy (z : ℚ × ℚ) (v : PyValue) : Bool := v.exactVal == some z

/-- The four concrete fields of `lalib.fields`. -/
inductive FieldId where
  | ratF
  | realF
  | cplxF
  | gf2F
deriving DecidableEq, Repr

/-- The `_math_name` of each concrete field. -/
def mathName : FieldId → String
  | .ratF => "ℚ"
  | .realF => "ℝ"
  | .cplxF => "ℂ"
  | .gf2F => "GF2"

/-- Model of `Field.__repr__` (and `__str__`) from `base.py`: the math name. -/
def fieldRepr (f : FieldId) : String := mathName f

/-- The public bindings of the `lalib.fields` module after its `del`
statements: `Q`, `R`, `C`, `GF2` (plus `Field`, irrelevant here). -/
def fieldsNamespace : List (String × FieldId) :=
  [("Q", .ratF), ("R", .realF), ("C", .cplxF), ("GF2", .gf2F)]

/-- The fragment of NFKC normalization relevant here: Python identifiers are
NFKC-normalized (PEP 3131), and the letterlike symbols U+211A, U+211D, U+2102
normalize to the plain letters Q, R, C. -/
def nfkcChar (c : Char) : Char :=
  if c = 'ℚ' then 'Q' else if c = 'ℝ' then 'R' else if c = 'ℂ' then 'C' else c

/-- NFKC normalization of an identifier, character-wise (sufficient for the
identifiers considered here). -/
def nfkcIdent (s : String) : String := String.mk (s.data.map nfkcChar)

/-- Model of evaluating an identifier in the namespace of `lalib.fields`
(as in `eval(repr(field), fields.__dict__)`): the parser NFKC-normalizes the
identifier, which is then looked up in the module namespace. -/
def evalFieldsIdent (s : String) : Option FieldId :=
  (fieldsNamespace.find? (fun p => p.1 == nfkcIdent s)).map (·.2)

/-- Model of `SingletonMixin.__new__` from `fields/utils.py`: return the
existing `_instance` if there is one, else allocate a fresh object and store
it.  The state is the optional stored instance id and the fresh-id counter. -/
def singletonNew (inst : Option ℕ) (nextId : ℕ) : ℕ × Option ℕ × ℕ :=
  match inst with
  | some i => (i, some i, nextId)
  | none => (nextId, some nextId, nextId + 1)

theorem to_gf2_ok_val {v : PyValue} {s : Bool} {t : PyFloat} {n : ℕ}
    (h : to_gf2 v s t = .ok n) : n = 0 ∨ n = 1 := by
  rcases hc : toComplexParts v with _ | ⟨re, im⟩ <;>
    simp only [to_gf2, hc] at h
  · cases h
  · split_ifs at h <;> simp_all

theorem to_gf2_error_kind {v : PyValue} {s : Bool} {t : PyFloat} {e : PyErr}
    (h : to_gf2 v s t = .error e) :
    (∃ m, e = .typeError m) ∨ (∃ m, e = .valueError m) := by
  rcases hc : toComplexParts v with _ | ⟨re, im⟩ <;>
    simp only [to_gf2, hc] at h
  · exact Or.inl ⟨_, (Except.error.injEq _ _ ▸ h).symm⟩
  · split_ifs at h <;> simp_all <;> exact Or.inr ⟨_, h.symm⟩

theorem GF2newKeyed_zero (cls : GF2Cls) :
    GF2newKeyed initState cls (.ok 0) = .ok (zeroObj, initState) := rfl

theorem GF2newKeyed_one (cls : GF2Cls) :
    GF2newKeyed initState cls (.ok 1) = .ok (oneObj, initState) := rfl

theorem GF2newKeyed_err (cls : GF2Cls) (e : PyErr) :
    GF2newKeyed initState cls (.error e) = .error e := rfl

theorem keyed_init_ok {cls : GF2Cls} {r : Except PyErr ℕ} {o : GF2Obj}
    {st' : GF2State} (hr : ∀ n, r = Except.ok n → n = 0 ∨ n = 1)
    (h : GF2newKeyed initState cls r = .ok (o, st')) :
    st' = initState ∧ (o = oneObj ∨ o = zeroObj) := by
  rcases r with e | n
  · rw [GF2newKeyed_err] at h; cases h
  · rcases hr n rfl with rfl | rfl
    · rw [GF2newKeyed_zero] at h
      simp only [Except.ok.injEq, Prod.mk.injEq] at h
      exact ⟨h.2.symm, Or.inr h.1.symm⟩
    · rw [GF2newKeyed_one] at h
      simp only [Except.ok.injEq, Prod.mk.injEq] at h
      exact ⟨h.2.symm, Or.inl h.1.symm⟩

theorem keyed_init_error {cls : GF2Cls} {r : Except PyErr ℕ} {e : PyErr}
    (hr : ∀ n, r = Except.ok n → n = 0 ∨ n = 1)
    (h : GF2newKeyed initState cls r = .error e) : r = .error e := by
  rcases r with e' | n
  · rw [GF2newKeyed_err] at h
    injection h with h'
    rw [h']
  · rcases hr n rfl with rfl | rfl
    · rw [GF2newKeyed_zero] at h; cases h
    · rw [GF2newKeyed_one] at h; cases h

theorem GF2new_init_ok {cls : GF2Cls} {v : PyValue} {s : Bool} {t : PyFloat}
    {o : GF2Obj} {st' : GF2State}
    (h : GF2new initState cls (some v) s t = .ok (o, st')) :
    st' = initState ∧ (o = oneObj ∨ o = zeroObj ∨ v = .gf2Val o) := by
  cases v with
  | gf2Val o0 =>
    simp only [GF2new] at h
    split at h
    · simp only [Except.ok.injEq, Prod.mk.injEq] at h
      exact ⟨h.2.symm, Or.inr (Or.inr (by rw [h.1]))⟩
    · have h2 := keyed_init_ok (fun n hn => to_gf2_ok_val hn) h
      exact ⟨h2.1, h2.2.imp id Or.inl⟩
  | int n =>
    have h2 := keyed_init_ok (fun n hn => to_gf2_ok_val hn) (by simpa [GF2new] using h)
    exact ⟨h2.1, h2.2.imp id Or.inl⟩
  | float x =>
    have h2 := keyed_init_ok (fun n hn => to_gf2_ok_val hn) (by simpa [GF2new] using h)
    exact ⟨h2.1, h2.2.imp id Or.inl⟩
  | cplx re im =>
    have h2 := keyed_init_ok (fun n hn => to_gf2_ok_val hn) (by simpa [GF2new] using h)
    exact ⟨h2.1, h2.2.imp id Or.inl⟩
  | nonNumber =>
    have h2 := keyed_init_ok (fun n hn => to_gf2_ok_val hn) (by simpa [GF2new] using h)
    exact ⟨h2.1, h2.2.imp id Or.inl⟩

theorem GF2new_init_error {cls : GF2Cls} {v : PyValue} {s : Bool} {t : PyFloat}
    {e : PyErr} (h : GF2new initState cls (some v) s t = .error e) :
    (∃ m, e = .typeError m) ∨ (∃ m, e = .valueError m) := by
  cases v with
  | gf2Val o0 =>
    simp only [GF2new] at h
    split at h
    · cases h
    · exact to_gf2_error_kind (keyed_init_error (fun n hn => to_gf2_ok_val hn) h)
  | int n =>
    exact to_gf2_error_kind
      (keyed_init_error (fun n hn => to_gf2_ok_val hn) (by simpa [GF2new] using h))
  | float x =>
    exact to_gf2_error_kind
      (keyed_init_error (fun n hn => to_gf2_ok_val hn) (by simpa [GF2new] using h))
  | cplx re im =>
    exact to_gf2_error_kind
      (keyed_init_error (fun n hn => to_gf2_ok_val hn) (by simpa [GF2new] using h))
  | nonNumber =>
    exact to_gf2_error_kind
      (keyed_init_error (fun n hn => to_gf2_ok_val hn) (by simpa [GF2new] using h))

/-! The claims. -/

/-- C1: `to_gf2(value, strict, threshold)` matches the construction contract
for every number-like input: it fails with ValueError when the imaginary
part magnitude is not within the threshold (NaN magnitudes count as not
within) or the real part is NaN; in strict mode it returns 1 when the real
part is within the threshold of 1, 0 when within the threshold of 0, and
otherwise fails with ValueError; in non-strict mode it returns 1 for any
real part not within the threshold of 0 — with no upper-magnitude
restriction, infinite real parts included — and 0 otherwise. -/
theorem to_gf2_construction_contract :
    ∀ (v : PyValue) (re im : PyFloat) (t : ℚ),
      toComplexParts v = some (re, im) → 0 < t →
      ((∀ strict, PyFloat.lt im.abs (.finite t) = false →
          to_gf2 v strict (.finite t) = .error (.valueError gf2likeMsg))
        ∧ (∀ strict, re = .nan →
            to_gf2 v strict (.finite t) = .error (.valueError gf2likeMsg))
        ∧ ((re = .pinf ∨ re = .ninf) → PyFloat.lt im.abs (.finite t) = true →
            to_gf2 v true (.finite t) = .error (.valueError gf2likeMsg)
            ∧ to_gf2 v false (.finite t) = .ok 1)
        ∧ (∀ r : ℚ, re = .finite r → PyFloat.lt im.abs (.finite t) = true →
            ((|r - 1| < t → to_gf2 v true (.finite t) = .ok 1)
            ∧ (t ≤ |r - 1| → |r| < t → to_gf2 v true (.finite t) = .ok 0)
            ∧ (t ≤ |r - 1| → t ≤ |r| →
                to_gf2 v true (.finite t) = .error (.valueError gf2likeMsg))
            ∧ (t ≤ |r| → to_gf2 v false (.finite t) = .ok 1)
            ∧ (|r| < t → to_gf2 v false (.finite t) = .ok 0)))) := by
  intro v re im t hc ht
  refine ⟨?_, ?_, ?_, ?_⟩
  · intro strict him
    simp [to_gf2, hc, him]
  · rintro strict rfl
    cases him : PyFloat.lt im.abs (.finite t) <;>
      simp [to_gf2, hc, him, PyFloat.isNaN]
  · rintro (rfl | rfl) him
    · exact ⟨by simp [to_gf2, hc, him,
          show PyFloat.isNaN .pinf = false from rfl,
          show PyFloat.lt (PyFloat.abs (PyFloat.sub .pinf (.finite 1)))
            (.finite t) = false from rfl,
          show PyFloat.lt (PyFloat.abs .pinf) (.finite t) = false from rfl],
        by simp [to_gf2, hc, him,
          show PyFloat.isNaN .pinf = false from rfl,
          show PyFloat.lt (PyFloat.abs .pinf) (.finite t) = false from rfl]⟩
    · exact ⟨by simp [to_gf2, hc, him,
          show PyFloat.isNaN .ninf = false from rfl,
          show PyFloat.lt (PyFloat.abs (PyFloat.sub .ninf (.finite 1)))
            (.finite t) = false from rfl,
          show PyFloat.lt (PyFloat.abs .ninf) (.finite t) = false from rfl],
        by simp [to_gf2, hc, him,
          show PyFloat.isNaN .ninf = false from rfl,
          show PyFloat.lt (PyFloat.abs .ninf) (.finite t) = false from rfl]⟩
  · rintro r rfl him
    have hlt1 : PyFloat.lt (PyFloat.abs ((PyFloat.finite r).sub (.finite 1)))
        (.finite t) = decide (|r - 1| < t) := by
      simp [PyFloat.sub, PyFloat.abs, PyFloat.lt]
    have hlt0 : PyFloat.lt (PyFloat.abs (PyFloat.finite r)) (.finite t) =
        decide (|r| < t) := by
      simp [PyFloat.abs, PyFloat.lt]
    refine ⟨?_, ?_, ?_, ?_, ?_⟩
    · intro h1
      simp [to_gf2, hc, him, PyFloat.isNaN, hlt1, h1]
    · intro h1 h0
      simp [to_gf2, hc, him, PyFloat.isNaN, hlt1, hlt0, not_lt.mpr h1, h0]
    · intro h1 h0
      simp [to_gf2, hc, him, PyFloat.isNaN, hlt1, hlt0, not_lt.mpr h1,
        not_lt.mpr h0]
    · intro h0
      simp [to_gf2, hc, him, PyFloat.isNaN, hlt1, hlt0, not_lt.mpr h0]
    · intro h0
      simp [to_gf2, hc, him, PyFloat.isNaN, hlt1, hlt0, h0]

/-- Witness for C1: concrete evaluations through the contract theorem. -/
theorem to_gf2_construction_contract_witness :
    to_gf2 (.int 42) false (.finite (1 / 10 ^ 12)) = .ok 1
    ∧ to_gf2 (.int 1) true (.finite (1 / 10 ^ 12)) = .ok 1 := by
  have h := to_gf2_construction_contract (.int 42) (.finite 42) (.finite 0)
    (1 / 10 ^ 12) (by decide) (by norm_num)
  have h2 := to_gf2_construction_contract (.int 1) (.finite 1) (.finite 0)
    (1 / 10 ^ 12) (by decide) (by norm_num)
  exact ⟨(h.2.2.2 42 rfl (by decide)).2.2.2.1 (by norm_num),
    (h2.2.2.2 1 rfl (by decide)).1 (by norm_num)⟩

/-- C2 counterexample: the claim says `__eq__` coerces the other operand with
non-strict-by-default rules; but `one == 42` evaluates to `False` in the code
although the non-strict coercion of `42` succeeds and yields the identical
singleton `one`, under which the claim would require `True`. -/
theorem gf2_eq_nonstrict_counterexample :
    GF2eq initState oneObj (.int 42) = .ok false
    ∧ GF2new initState .base (some (.int 42)) false THRESHOLD =
        .ok (oneObj, initState) := by decide

/-- C2 (amended): `x == y` coerces `y` with the constructor defaults — which
are strict (`strict=True`) — and tests singleton identity, returning `True`
exactly when the coercion succeeds and yields the identical singleton; a
non-coercible `y` (TypeError or ValueError during coercion) compares unequal
rather than raising. -/
theorem gf2_eq_strict_identity :
    ∀ (x : GF2Obj) (y : PyValue),
      x = oneObj ∨ x = zeroObj →
      (∀ o0, y = .gf2Val o0 → o0 = oneObj ∨ o0 = zeroObj) →
      ((GF2eq initState x y = .ok true ↔
          ∃ st', GF2new initState .base (some y) true THRESHOLD = .ok (x, st'))
        ∧ (∀ e, GF2new initState .base (some y) true THRESHOLD = .error e →
            GF2eq initState x y = .ok false)) := by
  intro x y hx hy
  constructor
  · rcases hn : GF2new initState .base (some y) true THRESHOLD with e | ⟨o, st1⟩
    · rcases GF2new_init_error hn with ⟨m, rfl⟩ | ⟨m, rfl⟩ <;>
        simp [GF2eq, hn]
    · have ho : o = oneObj ∨ o = zeroObj := by
        rcases (GF2new_init_ok hn).2 with h | h | h
        · exact Or.inl h
        · exact Or.inr h
        · exact hy o h
      simp only [GF2eq, hn]
      constructor
      · intro hid
        have hido : x.id = o.id := by simpa using hid
        have hxo : x = o := by
          rcases hx with rfl | rfl <;> rcases ho with rfl | rfl <;>
            first | rfl | (exact absurd hido (by decide))
        exact ⟨st1, by rw [hxo]⟩
      · rintro ⟨st', hst⟩
        simp only [Except.ok.injEq, Prod.mk.injEq] at hst
        rw [← hst.1]
        simp
  · intro e he
    rcases GF2new_init_error he with ⟨m, rfl⟩ | ⟨m, rfl⟩ <;> simp [GF2eq, he]

/-- Witness for C2 (amended): instantiated at `one == 1`. -/
theorem gf2_eq_strict_identity_witness :
    ((GF2eq initState oneObj (.int 1) = .ok true ↔
        ∃ st', GF2new initState .base (some (.int 1)) true THRESHOLD =
          .ok (oneObj, st'))
      ∧ (∀ e, GF2new initState .base (some (.int 1)) true THRESHOLD = .error e →
          GF2eq initState oneObj (.int 1) = .ok false)) :=
  gf2_eq_strict_identity oneObj (.int 1) (Or.inl rfl) (fun _ h => nomatch h)

/-- C3: the GF2 arithmetic table holds — `one+one` is `zero`, `one+zero` is
`one`, `one*one` is `one`, `one*zero` is `zero` (identity of the singleton
results) — and division or modulo by the zero element raises
`ZeroDivisionError` with the distinguished message rather than any other
error or a silent result. -/
theorem gf2_arithmetic_table :
    GF2binop initState .add oneObj (.gf2Val oneObj) = .val zeroObj initState
    ∧ GF2binop initState .add oneObj (.gf2Val zeroObj) = .val oneObj initState
    ∧ GF2binop initState .mul oneObj (.gf2Val oneObj) = .val oneObj initState
    ∧ GF2binop initState .mul oneObj (.gf2Val zeroObj) = .val zeroObj initState
    ∧ GF2binop initState .truediv oneObj (.gf2Val zeroObj) =
        .err (.zeroDivisionError "division by `0`-like value")
    ∧ GF2binop initState .mod oneObj (.gf2Val zeroObj) =
        .err (.zeroDivisionError "division by `0`-like value") := by decide

/-- C5: singleton discipline — over the initialized registry, constructing a
GF2 element from any coercible value returns one of the two existing
singletons without changing the registry, so repeating the construction
returns the identical object; and the field `SingletonMixin` returns the
exact existing instance on repeated construction. -/
theorem gf2_and_field_singleton_discipline :
    (∀ (v : PyValue) (s : Bool) (t : PyFloat) (o : GF2Obj) (st : GF2State),
        (∀ o0, v = .gf2Val o0 → o0 = oneObj ∨ o0 = zeroObj) →
        GF2new initState .base (some v) s t = .ok (o, st) →
        st = initState ∧ (o = oneObj ∨ o = zeroObj)
          ∧ GF2new st .base (some v) s t = .ok (o, st))
    ∧ (∀ (inst : Option ℕ) (n0 : ℕ),
        (singletonNew (singletonNew inst n0).2.1 (singletonNew inst n0).2.2).1 =
          (singletonNew inst n0).1
        ∧ (singletonNew (singletonNew inst n0).2.1 (singletonNew inst n0).2.2).2.1 =
          (singletonNew inst n0).2.1
        ∧ (singletonNew (singletonNew inst n0).2.1 (singletonNew inst n0).2.2).2.2 =
          (singletonNew inst n0).2.2) := by
  constructor
  · intro v s t o st hwf h
    obtain ⟨hst, ho⟩ := GF2new_init_ok h
    subst hst
    refine ⟨rfl, ?_, h⟩
    rcases ho with h1 | h1 | h1
    exacts [Or.inl h1, Or.inr h1, hwf o h1]
  · intro inst n0
    cases inst <;> simp [singletonNew]

/-- Witness for C5: instantiated at the coercible value `1`. -/
theorem gf2_and_field_singleton_discipline_witness :
    initState = initState ∧ (oneObj = oneObj ∨ oneObj = zeroObj)
      ∧ GF2new initState .base (some (.int 1)) true THRESHOLD =
        .ok (oneObj, initState) :=
  gf2_and_field_singleton_discipline.1 (.int 1) true THRESHOLD oneObj initState
    (fun _ h => nomatch h) (by decide)

theorem pyAddMod2_not_gf2 :
    ∀ a b r, pyAddMod2 a b = .ok r → ∀ o0, r ≠ .gf2Val o0 := by
  intro a b r hr o0
  simp only [pyAddMod2, Except.ok.injEq] at hr
  subst hr
  simp

theorem pyMulInt_not_gf2 :
    ∀ a b r, pyMulInt a b = .ok r → ∀ o0, r ≠ .gf2Val o0 := by
  intro a b r hr o0
  simp only [pyMulInt, Except.ok.injEq] at hr
  subst hr
  simp

theorem pyTrueDivInt_not_gf2 :
    ∀ a b r, pyTrueDivInt a b = .ok r → ∀ o0, r ≠ .gf2Val o0 := by
  intro a b r hr o0
  simp only [pyTrueDivInt] at hr
  split_ifs at hr
  simp only [Except.ok.injEq] at hr
  subst hr
  simp

theorem pyModInt_not_gf2 :
    ∀ a b r, pyModInt a b = .ok r → ∀ o0, r ≠ .gf2Val o0 := by
  intro a b r hr o0
  simp only [pyModInt] at hr
  split_ifs at hr
  simp only [Except.ok.injEq] at hr
  subst hr
  simp

theorem pyPowInt_not_gf2 :
    ∀ a b r, pyPowInt a b = .ok r → ∀ o0, r ≠ .gf2Val o0 := by
  intro a b r hr o0
  simp only [pyPowInt, Except.ok.injEq] at hr
  subst hr
  simp

theorem GF2compute_val_closure {self : GF2Obj} {other : PyValue}
    {func : ℤ → ℤ → Except PyErr PyValue} {o : GF2Obj} {st : GF2State}
    (hf : ∀ a b r, func a b = .ok r → ∀ o0, r ≠ .gf2Val o0)
    (h : GF2compute initState self other func = .val o st) :
    (o = oneObj ∨ o = zeroObj) ∧ st = initState := by
  unfold GF2compute at h
  rcases hn : GF2new initState .base (some other) true THRESHOLD with
    e | ⟨o1, st1⟩ <;> simp only [hn] at h
  · rcases e <;> simp at h
  · have hst1 := (GF2new_init_ok hn).1
    subst hst1
    rcases hfu : func (self.val : ℤ) (o1.val : ℤ) with e2 | res <;>
      simp only [hfu] at h
    · rcases e2 <;> simp at h
    · rcases hn2 : GF2new initState (selfCls self) (some res) true THRESHOLD with
        e3 | ⟨r, st2⟩ <;> simp only [hn2] at h
      · rcases e3 <;> simp at h
      · simp only [OpResult.val.injEq] at h
        obtain ⟨rfl, rfl⟩ := h
        have h2 := GF2new_init_ok hn2
        rcases h2.2 with h1 | h1 | h1
        · exact ⟨Or.inl h1, h2.1⟩
        · exact ⟨Or.inr h1, h2.1⟩
        · exact absurd h1 (hf _ _ _ hfu _)

/-- C10: closure invariant of GF2 arithmetic — every binary operator
(`+ - * / // % **` and the reflected forms), whenever it returns normally
over the initialized registry, returns one of the two existing singletons by
identity and leaves the registry unchanged (no third GF2 instance is ever
allocated); the unary operators return `self`, hence a singleton. -/
theorem gf2_closure_invariant :
    (∀ (op : GF2Op) (self : GF2Obj) (other : PyValue) (o : GF2Obj)
        (st : GF2State),
        GF2binop initState op self other = .val o st →
        (o = oneObj ∨ o = zeroObj) ∧ st = initState)
    ∧ (∀ self : GF2Obj, self = oneObj ∨ self = zeroObj →
        (GF2pos self = oneObj ∨ GF2pos self = zeroObj)
        ∧ (GF2neg self = oneObj ∨ GF2neg self = zeroObj)
        ∧ (GF2absOp self = oneObj ∨ GF2absOp self = zeroObj)) := by
  constructor
  · intro op self other o st h
    cases op <;> simp only [GF2binop] at h
    exacts [GF2compute_val_closure pyAddMod2_not_gf2 h,
      GF2compute_val_closure pyAddMod2_not_gf2 h,
      GF2compute_val_closure pyAddMod2_not_gf2 h,
      GF2compute_val_closure pyAddMod2_not_gf2 h,
      GF2compute_val_closure pyMulInt_not_gf2 h,
      GF2compute_val_closure pyMulInt_not_gf2 h,
      GF2compute_val_closure pyTrueDivInt_not_gf2 h,
      GF2compute_val_closure (fun a b r hr => pyTrueDivInt_not_gf2 b a r hr) h,
      GF2compute_val_closure pyTrueDivInt_not_gf2 h,
      GF2compute_val_closure (fun a b r hr => pyTrueDivInt_not_gf2 b a r hr) h,
      GF2compute_val_closure pyModInt_not_gf2 h,
      GF2compute_val_closure (fun a b r hr => pyModInt_not_gf2 b a r hr) h,
      GF2compute_val_closure pyPowInt_not_gf2 h,
      GF2compute_val_closure (fun a b r hr => pyPowInt_not_gf2 b a r hr) h]
  · intro self hs
    exact ⟨hs, hs, hs⟩

/-- Witness for C10: instantiated at `one + one` and the unary operators. -/
theorem gf2_closure_invariant_witness :
    ((zeroObj = oneObj ∨ zeroObj = zeroObj) ∧ initState = initState)
    ∧ ((GF2pos oneObj = oneObj ∨ GF2pos oneObj = zeroObj)
      ∧ (GF2neg oneObj = oneObj ∨ GF2neg oneObj = zeroObj)
      ∧ (GF2absOp oneObj = oneObj ∨ GF2absOp oneObj = zeroObj)) :=
  ⟨gf2_closure_invariant.1 .add oneObj (.gf2Val oneObj) zeroObj initState
      (by decide),
    gf2_closure_invariant.2 oneObj (Or.inl rfl)⟩

/-! Supporting lemmas for the cast/validate round-trip claims. -/

theorem limitDenominator_of_le {q : ℚ} {D : ℕ} (h : q.den ≤ D) :
    limitDenominator q D = q := by
  simp [limitDenominator, h]

theorem pyFraction_exact {v : PyValue} {q : ℚ} (h : pyFraction v = .ok q) :
    v.exactVal = some (q, 0) := by
  cases v with
  | int n =>
    simp only [pyFraction, Except.ok.injEq] at h
    simp [PyValue.exactVal, h]
  | float x => cases x <;> simp_all [pyFraction, PyValue.exactVal]
  | cplx a b => simp [pyFraction] at h
  | gf2Val o =>
    simp only [pyFraction, Except.ok.injEq] at h
    simp [PyValue.exactVal, h]
  | nonNumber => simp [pyFraction] at h

theorem pyFloatFn_exact {v : PyValue} {q : ℚ}
    (h : pyFloatFn v = .ok (.finite q)) : v.exactVal = some (q, 0) := by
  cases v with
  | int n => simp_all [pyFloatFn, PyValue.exactVal]
  | float x => cases x <;> simp_all [pyFloatFn, PyValue.exactVal]
  | cplx a b => simp [pyFloatFn] at h
  | gf2Val o => simp_all [pyFloatFn, PyValue.exactVal]
  | nonNumber => simp [pyFloatFn] at h

theorem toComplexParts_exact {v : PyValue} {a b : ℚ}
    (h : toComplexParts v = some (.finite a, .finite b)) :
    v.exactVal = some (a, b) := by
  cases v with
  | int n => simp_all [toComplexParts, PyValue.exactVal]
  | float x => cases x <;> simp_all [toComplexParts, PyValue.exactVal]
  | cplx x y => cases x <;> cases y <;> simp_all [toComplexParts, PyValue.exactVal]
  | gf2Val o => simp_all [toComplexParts, PyValue.exactVal]
  | nonNumber => simp [toComplexParts] at h

theorem wrapCast_ok_of {α : Type} {r : Except PyErr α} {f : α → Bool} {x : α}
    (h : wrapCast r f = .ok x) : r = .ok x ∧ f x = true := by
  rcases r with e | y
  · simp only [wrapCast] at h
    split_ifs at h
  · simp only [wrapCast] at h
    split_ifs at h with hf
    injection h with h
    subst h
    exact ⟨rfl, hf⟩

/-- C4 counterexample: `Q.cast` succeeds on the float `2 ** -50` (validate is
`True`) but the denominator limiting changes the value to `0`, so
`Q.cast(v) == v` is `False` — the claim fails as universally stated. -/
theorem qcast_changes_value_counterexample :
    Qcast (.float (.finite (1 / 2 ^ 50))) = .ok 0
    ∧ numEqPy 0 (.float (.finite (1 / 2 ^ 50))) = false
    ∧ Qvalidate (.float (.finite (1 / 2 ^ 50))) true = .ok true := by
  exact ⟨by decide, by decide, by decide⟩

/-- C4 (amended): for every field and every value `v` on which `cast`
succeeds, `validate(v)` is `True`; and `cast(v) == v` holds whenever the
field's storage represents `v` exactly — for ℚ when the exact value of `v`
has denominator at most the configured `MAX_DENOMINATOR` (otherwise the
denominator limiting may change the value), for ℝ and ℂ always in this model
of exact floats, and for GF2 always (its equality re-applies the same strict
coercion). -/
theorem field_cast_validate_roundtrip :
    (∀ (v : PyValue) (x : ℚ), Qcast v = .ok x → Qvalidate v true = .ok true)
    ∧ (∀ (v : PyValue) (x : PyFloat), Rcast v = .ok x →
        Rvalidate v true = .ok true)
    ∧ (∀ (v : PyValue) (x : PyFloat × PyFloat), Ccast v = .ok x →
        Cvalidate v true = .ok true)
    ∧ (∀ (v : PyValue) (o : GF2Obj), GF2cast initState v = .ok o →
        GF2validate initState v true = .ok true)
    ∧ (∀ (v : PyValue) (q x : ℚ), v.exactVal = some (q, 0) →
        q.den ≤ MAX_DENOMINATOR → Qcast v = .ok x →
        x = q ∧ numEqPy x v = true)
    ∧ (∀ (v : PyValue) (x : PyFloat), Rcast v = .ok x →
        ∃ xq, x = .finite xq ∧ numEqPy xq v = true)
    ∧ (∀ (v : PyValue) (p : PyFloat × PyFloat), Ccast v = .ok p →
        ∃ a b, p = (.finite a, .finite b) ∧ complexEqPy (a, b) v = true)
    ∧ (∀ (v : PyValue) (o : GF2Obj), GF2cast initState v = .ok o →
        GF2eq initState o v = .ok true) := by
  refine ⟨?_, ?_, ?_, ?_, ?_, ?_, ?_, ?_⟩
  · intro v x h
    simp [Qvalidate, validateWrap, h]
  · intro v x h
    simp [Rvalidate, validateWrap, h]
  · intro v x h
    simp [Cvalidate, validateWrap, h]
  · intro v o h
    simp [GF2validate, validateWrap, h]
  · intro v q x hex hden h
    obtain ⟨hcf, -⟩ := wrapCast_ok_of
      (show wrapCast (Q_castFunc v MAX_DENOMINATOR) (fun _ => true) = .ok x from h)
    rcases hf : pyFraction v with e | f0 <;>
      simp only [Q_castFunc, hf, Except.map] at hcf
    · cases hcf
    · have hexf := pyFraction_exact hf
      rw [hex] at hexf
      simp only [Option.some.injEq, Prod.mk.injEq] at hexf
      obtain ⟨rfl, -⟩ := hexf
      injection hcf with hcf
      rw [← hcf, limitDenominator_of_le hden]
      exact ⟨rfl, by simp [numEqPy, hex]⟩
  · intro v x h
    obtain ⟨hcf, hfin⟩ := wrapCast_ok_of
      (show wrapCast (pyFloatFn v) PyFloat.isFinite = .ok x from h)
    cases x <;> simp only [PyFloat.isFinite] at hfin
    case finite xq =>
      exact ⟨xq, rfl, by simp [numEqPy, pyFloatFn_exact hcf]⟩
    all_goals cases hfin
  · intro v p h
    obtain ⟨hcf, hfin⟩ := wrapCast_ok_of
      (show wrapCast (pyComplexFn v) (fun p => p.1.isFinite && p.2.isFinite) =
        .ok p from h)
    rcases p with ⟨pa, pb⟩
    rcases htc : toComplexParts v with _ | p0 <;>
      simp only [pyComplexFn, htc] at hcf
    · cases hcf
    · injection hcf with hcf
      subst hcf
      cases pa <;> cases pb <;> simp only [PyFloat.isFinite, Bool.and_eq_true] at hfin
      case finite.finite a b =>
        exact ⟨a, b, rfl, by simp [complexEqPy, toComplexParts_exact htc]⟩
      all_goals simp_all
  · intro v o h
    obtain ⟨hcf, -⟩ := wrapCast_ok_of
      (show wrapCast (GF2_castFunc initState v true THRESHOLD) (fun _ => true) =
        .ok o from h)
    rcases hn : GF2new initState .base (some v) true THRESHOLD with e | ⟨o2, st2⟩ <;>
      simp only [GF2_castFunc, hn, Except.map] at hcf
    · cases hcf
    · injection hcf with hcf
      subst hcf
      simp [GF2eq, hn]

/-- Witness for C4 (amended): instantiated per field at concrete values. -/
theorem field_cast_validate_roundtrip_witness :
    Qvalidate (.int 1) true = .ok true
    ∧ ((1 : ℚ) = 1 ∧ numEqPy 1 (.int 1) = true)
    ∧ (∃ xq, PyFloat.finite (1 / 2) = .finite xq
        ∧ numEqPy xq (.float (.finite (1 / 2))) = true)
    ∧ GF2eq initState oneObj (.int 1) = .ok true := by
  refine ⟨?_, ?_, ?_, ?_⟩
  · exact field_cast_validate_roundtrip.1 (.int 1) 1 (by decide)
  · exact field_cast_validate_roundtrip.2.2.2.2.1 (.int 1) 1 1 (by decide)
      (by decide) (by decide)
  · exact field_cast_validate_roundtrip.2.2.2.2.2.1 (.float (.finite (1 / 2)))
      (.finite (1 / 2)) (by decide)
  · exact field_cast_validate_roundtrip.2.2.2.2.2.2.2 (.int 1) oneObj (by decide)

/-- C6: casting `float("nan")`, `float("inf")`, `float("-inf")` into any of
the four fields raises ValueError with the uniform cast message — not
OverflowError or any other exception type (the `OverflowError` from
`Fraction` is caught by `Field.cast` as an `ArithmeticError` and re-raised
as ValueError). -/
theorem nonfinite_cast_valueerror :
    (Qcast (.float .nan) = .error (.valueError castErrMsg)
      ∧ Qcast (.float .pinf) = .error (.valueError castErrMsg)
      ∧ Qcast (.float .ninf) = .error (.valueError castErrMsg))
    ∧ (Rcast (.float .nan) = .error (.valueError castErrMsg)
      ∧ Rcast (.float .pinf) = .error (.valueError castErrMsg)
      ∧ Rcast (.float .ninf) = .error (.valueError castErrMsg))
    ∧ (Ccast (.float .nan) = .error (.valueError castErrMsg)
      ∧ Ccast (.float .pinf) = .error (.valueError castErrMsg)
      ∧ Ccast (.float .ninf) = .error (.valueError castErrMsg))
    ∧ (GF2cast initState (.float .nan) = .error (.valueError castErrMsg)
      ∧ GF2cast initState (.float .pinf) = .error (.valueError castErrMsg)
      ∧ GF2cast initState (.float .ninf) = .error (.valueError castErrMsg)) := by
  decide

theorem uniform_mem {a b u : ℚ} (h0 : 0 ≤ u) (h1 : u ≤ 1) :
    min a b ≤ uniform a b u ∧ uniform a b u ≤ max a b := by
  unfold uniform
  rcases le_total a b with hab | hab
  · rw [min_eq_left hab, max_eq_right hab]
    constructor <;> nlinarith
  · rw [min_eq_right hab, max_eq_left hab]
    constructor <;> nlinarith

/-- C7 counterexample: for ℝ with the castable bounds 5e-13 (given in
order), the call succeeds but the draw is rounded (default `ndigits = 12`)
to `0.0`, which lies outside the normalized range `[5e-13, 5e-13]` — the
in-range guarantee fails once the precision rounding is applied. -/
theorem rrandom_rounding_counterexample :
    Rcast (.float (.finite (5 / 10 ^ 13))) = .ok (.finite (5 / 10 ^ 13))
    ∧ Rrandom (.float (.finite (5 / 10 ^ 13))) (.float (.finite (5 / 10 ^ 13)))
        12 (1 / 2) = .ok (.finite 0)
    ∧ ¬(min (5 / 10 ^ 13 : ℚ) (5 / 10 ^ 13) ≤ 0
        ∧ (0 : ℚ) ≤ max (5 / 10 ^ 13 : ℚ) (5 / 10 ^ 13)) := by
  refine ⟨by decide, by decide, ?_⟩
  simp only [min_self, max_self]
  intro hcon
  have h5 := hcon.1
  norm_num at h5

/-- C7 (amended): for every field, `random` with castable bounds in either
order (including reversed) succeeds, and the underlying uniform draw lies
within the normalized range of the cast bounds; the returned value is that
in-range draw post-processed by the field's precision step — `round(., n)`
for ℝ and (per part) ℂ, denominator limiting for ℚ, and the identity for
GF2 (whose result is one of the two cast bounds itself) — which can move the
result out of the range by at most the precision quantum. -/
theorem random_bounds_normalized :
    (∀ (vlo vup : PyValue) (a b : ℚ) (n : ℤ) (u : ℚ),
        Rcast vlo = .ok (.finite a) → Rcast vup = .ok (.finite b) →
        0 ≤ u → u ≤ 1 →
        ∃ x, min a b ≤ x ∧ x ≤ max a b
          ∧ Rrandom vlo vup n u = .ok (.finite (roundTo x n)))
    ∧ (∀ (vlo vup : PyValue) (a b : ℚ) (mD : ℕ) (u : ℚ),
        Qcast vlo = .ok a → Qcast vup = .ok b → 0 ≤ u → u ≤ 1 →
        ∃ x, min a b ≤ x ∧ x ≤ max a b
          ∧ Qrandom vlo vup mD u =
            .ok (limitDenominator (limitDenominator x MAX_DENOMINATOR) mD))
    ∧ (∀ (vlo vup : PyValue) (a1 b1 a2 b2 : ℚ) (n : ℤ) (u1 u2 : ℚ),
        Ccast vlo = .ok (.finite a1, .finite b1) →
        Ccast vup = .ok (.finite a2, .finite b2) →
        0 ≤ u1 → u1 ≤ 1 → 0 ≤ u2 → u2 ≤ 1 →
        ∃ x y, min a1 a2 ≤ x ∧ x ≤ max a1 a2 ∧ min b1 b2 ≤ y ∧ y ≤ max b1 b2
          ∧ Crandom vlo vup n u1 u2 = .ok (roundTo x n, roundTo y n))
    ∧ (∀ (vlo vup : PyValue) (s : Bool) (t : PyFloat) (lo up : GF2Obj)
        (c : Bool),
        GF2castWith initState vlo s t = .ok lo →
        GF2castWith initState vup s t = .ok up →
        GF2random initState vlo vup s t c = .ok (if c then lo else up)) := by
  refine ⟨?_, ?_, ?_, ?_⟩
  · intro vlo vup a b n u hlo hup h0 h1
    refine ⟨uniform a b u, (uniform_mem h0 h1).1, (uniform_mem h0 h1).2, ?_⟩
    simp [Rrandom, hlo, hup, bind, Except.bind, pure, Except.pure]
  · intro vlo vup a b mD u hlo hup h0 h1
    refine ⟨uniform a b u, (uniform_mem h0 h1).1, (uniform_mem h0 h1).2, ?_⟩
    simp [Qrandom, hlo, hup, bind, Except.bind, pure, Except.pure]
  · intro vlo vup a1 b1 a2 b2 n u1 u2 hlo hup h01 h11 h02 h12
    refine ⟨uniform a1 a2 u1, uniform b1 b2 u2, (uniform_mem h01 h11).1,
      (uniform_mem h01 h11).2, (uniform_mem h02 h12).1, (uniform_mem h02 h12).2, ?_⟩
    simp [Crandom, hlo, hup, bind, Except.bind, pure, Except.pure]
  · intro vlo vup s t lo up c hlo hup
    simp [GF2random, hlo, hup, bind, Except.bind, pure, Except.pure]

/-- Witness for C7 (amended): ℝ and GF2 instantiated at concrete bounds. -/
theorem random_bounds_normalized_witness :
    (∃ x, min (0 : ℚ) 1 ≤ x ∧ x ≤ max (0 : ℚ) 1
      ∧ Rrandom (.int 0) (.int 1) 12 (1 / 2) = .ok (.finite (roundTo x 12)))
    ∧ GF2random initState (.int 0) (.int 1) true THRESHOLD true =
        .ok (if true then zeroObj else oneObj) := by
  constructor
  · exact random_bounds_normalized.1 (.int 0) (.int 1) 0 1 12 (1 / 2) (by decide)
      (by decide) (by norm_num) (by norm_num)
  · exact random_bounds_normalized.2.2.2 (.int 0) (.int 1) true THRESHOLD
      zeroObj oneObj true (by decide) (by decide)

/-- C8: each concrete field's text representation is its short mathematical
symbol, and evaluating exactly that string as an identifier in the
`lalib.fields` namespace (the parser applies NFKC identifier normalization,
mapping ℚ/ℝ/ℂ to Q/R/C) resolves back to the same field singleton. -/
theorem field_repr_resolves_to_singleton :
    fieldRepr .ratF = "ℚ" ∧ fieldRepr .realF = "ℝ" ∧ fieldRepr .cplxF = "ℂ"
    ∧ fieldRepr .gf2F = "GF2"
    ∧ ∀ f : FieldId, evalFieldsIdent (fieldRepr f) = some f := by
  refine ⟨rfl, rfl, rfl, rfl, ?_⟩
  intro f
  cases f <;> decide

end Lalib
